import Mathlib

/-!
Shallow embedding of the FDC-101 attestation workflow engine
(src/src/services/FDCService.ts, src/src/base/WeatherInsuranceBase.ts,
src/src/types/FDCTypes.ts) and proofs about it.

Conventions used throughout:
* JavaScript numbers that hold millisecond counts or attempt counts are
  modelled as `Nat`; the adaptive poll interval (which is multiplied by the
  float 1.5) is modelled as `Rat`, on which the multiplication is exact.
* The JavaScript `x || d` defaulting idiom is modelled by `jsOrNat` /
  `jsOrStr` (0, "" and undefined are falsy).
* Fallible code returns `Except FDCErr`; the error classes of
  src/src/types/FDCTypes.ts become the constructors of `FDCErr`.
* Side effects that the claims observe (operation invocations, onRetry
  callbacks, sleeps, network requests) are returned as explicit counters
  and logs.
-/

/-- Error taxonomy of src/src/types/FDCTypes.ts.
`fdcError message code` is `FDCError`; `retryError` is `FDCRetryError`
(code RETRY_EXHAUSTED, field `attempts`); `timeoutError` is
`FDCTimeoutError` (code TIMEOUT, field `timeoutMs`); `plainError` is a
plain JavaScript `Error` (e.g. the ones thrown by
AttestationRequestBuilder.build). -/
inductive FDCErr where
  | fdcError (message : String) (code : String)
  | retryError (message : String) (attempts : Nat) (originalError : Option FDCErr)
  | timeoutError (message : String) (timeoutMs : Nat)
  | plainError (message : String)

/-- `RetryOptions` of FDCTypes.ts: every field optional. -/
structure RetryOptions where
  maxAttempts : Option Nat := none
  initialDelayMs : Option Nat := none
  maxDelayMs : Option Nat := none
  backoffMultiplier : Option Nat := none
  deriving DecidableEq, Repr

/-- JavaScript `o || d` for an optional number: `undefined` and `0` fall
back to the default. -/
def jsOrNat (o : Option Nat) (d : Nat) : Nat :=
  match o with
  | none => d
  | some v => if v = 0 then d else v

/-- JavaScript `o || d` for an optional string: `undefined` and `""` fall
back to the default. -/
def jsOrStr (o : Option String) (d : String) : String :=
  match o with
  | none => d
  | some s => if s = "" then d else s

/-- The private fields of class RetryStrategy (FDCService.ts lines 77-88). -/
structure RetryStrategy where
  maxAttempts : Nat
  initialDelayMs : Nat
  maxDelayMs : Nat
  backoffMultiplier : Nat
  deriving DecidableEq, Repr

/-- The RetryStrategy constructor (FDCService.ts lines 83-88):
each field is `options.x || default`. -/
def RetryStrategy.fromOptions (options : RetryOptions) : RetryStrategy :=
  { maxAttempts := jsOrNat options.maxAttempts 10
    initialDelayMs := jsOrNat options.initialDelayMs 1000
    maxDelayMs := jsOrNat options.maxDelayMs 60000
    backoffMultiplier := jsOrNat options.backoffMultiplier 2 }

/-- Observable outcome of `RetryStrategy.execute`: the returned value or
thrown error, the number of times `operation` was invoked, the `(attempt,
error)` pairs passed to `onRetry` (in call order), and the delays passed
to `sleep` (in call order). -/
structure ExecResult (A : Type) where
  result : Except FDCErr A
  calls : Nat
  onRetryLog : List (Nat × FDCErr)
  sleeps : List Nat

/-- The message of the `FDCRetryError` thrown at FDCService.ts line 116. -/
def retryMsg (attempts : Nat) : String :=
  "Operation failed after " ++ toString attempts ++ " attempts"

/-- The `for` loop of RetryStrategy.execute (FDCService.ts lines 97-114),
entered at loop variable `attempt` with current backoff `delay` and the
last caught error `lastError`.  The operation is modelled as a function
from the attempt number (1-based) to that attempt's outcome.  `fuel` is
the number of loop iterations still allowed by the loop condition
`attempt <= maxAttempts`, i.e. `maxAttempts + 1 - attempt`; fuel 0 is the
loop exiting by its condition and throwing `FDCRetryError` (line 116). -/
def RetryStrategy.go {A : Type} (s : RetryStrategy) (op : Nat → Except FDCErr A)
    (attempt : Nat) (delay : Nat) (lastError : Option FDCErr) :
    (fuel : Nat) → ExecResult A
  | 0 =>
    { result := .error (.retryError (retryMsg s.maxAttempts) s.maxAttempts lastError)
      calls := 0, onRetryLog := [], sleeps := [] }
  | fuel + 1 =>
    match op attempt with
    | .ok a => { result := .ok a, calls := 1, onRetryLog := [], sleeps := [] }
    | .error e =>
      if attempt = s.maxAttempts then
        { result := .error (.retryError (retryMsg s.maxAttempts) s.maxAttempts (some e))
          calls := 1, onRetryLog := [], sleeps := [] }
      else
        let r := s.go op (attempt + 1)
          (min (delay * s.backoffMultiplier) s.maxDelayMs) (some e) fuel
        { result := r.result
          calls := r.calls + 1
          onRetryLog := (attempt, e) :: r.onRetryLog
          sleeps := delay :: r.sleeps }

/-- `RetryStrategy.execute` (FDCService.ts lines 90-121): run the loop
from attempt 1 with `delay = initialDelayMs` and no previous error. -/
def RetryStrategy.execute {A : Type} (s : RetryStrategy)
    (op : Nat → Except FDCErr A) : ExecResult A :=
  s.go op 1 s.initialDelayMs none s.maxAttempts

/-- If every attempt in the remaining range fails, the loop performs all
remaining iterations and throws `FDCRetryError` carrying `maxAttempts` and
the error of the final attempt. -/
theorem RetryStrategy.go_allFail {A : Type} (s : RetryStrategy)
    (op : Nat → Except FDCErr A) (errAt : Nat → FDCErr) (fuel : Nat) :
    ∀ (attempt delay : Nat) (lastError : Option FDCErr),
      attempt + fuel = s.maxAttempts + 1 → 1 ≤ fuel →
      (∀ n, attempt ≤ n → n ≤ s.maxAttempts → op n = .error (errAt n)) →
      (s.go op attempt delay lastError fuel).calls = fuel ∧
      (s.go op attempt delay lastError fuel).result =
        .error (.retryError (retryMsg s.maxAttempts) s.maxAttempts
          (some (errAt s.maxAttempts))) := by
  induction fuel with
  | zero =>
    intro attempt delay lastError hinv hfuel hfail
    omega
  | succ fuel ih =>
    intro attempt delay lastError hinv hfuel hfail
    have hle : attempt ≤ s.maxAttempts := by omega
    have hop : op attempt = .error (errAt attempt) := hfail attempt le_rfl hle
    by_cases heq : attempt = s.maxAttempts
    · have hf0 : fuel = 0 := by omega
      subst hf0
      subst heq
      simp [RetryStrategy.go, hop]
    · have hfuel1 : 1 ≤ fuel := by omega
      have hinv1 : (attempt + 1) + fuel = s.maxAttempts + 1 := by omega
      have hfail1 : ∀ n, attempt + 1 ≤ n → n ≤ s.maxAttempts → op n = .error (errAt n) :=
        fun n h1 h2 => hfail n (by omega) h2
      have := ih (attempt + 1) (min (delay * s.backoffMultiplier) s.maxDelayMs)
        (some (errAt attempt)) hinv1 hfuel1 hfail1
      simp [RetryStrategy.go, hop, heq]
      exact ⟨this.1, this.2⟩

/-- If attempts `attempt .. j` fail and attempt `j+1` succeeds (all within
the budget), the loop returns the success value after `j + 2 - attempt`
invocations, logging one `onRetry` call per failed attempt, each before
the corresponding sleep. -/
theorem RetryStrategy.go_failThenSucceed {A : Type} (s : RetryStrategy)
    (op : Nat → Except FDCErr A) (errAt : Nat → FDCErr) (v : A) (j : Nat) (fuel : Nat) :
    ∀ (attempt delay : Nat) (lastError : Option FDCErr),
      attempt + fuel = s.maxAttempts + 1 →
      attempt ≤ j + 1 → j + 1 ≤ s.maxAttempts →
      (∀ n, attempt ≤ n → n ≤ j → op n = .error (errAt n)) →
      op (j + 1) = .ok v →
      (s.go op attempt delay lastError fuel).result = .ok v ∧
      (s.go op attempt delay lastError fuel).calls = j + 2 - attempt ∧
      (s.go op attempt delay lastError fuel).onRetryLog =
        (List.range' attempt (j + 1 - attempt)).map (fun i => (i, errAt i)) ∧
      (s.go op attempt delay lastError fuel).sleeps.length = j + 1 - attempt := by
  induction fuel with
  | zero =>
    intro attempt delay lastError hinv h1 h2 hfail hsucc
    omega
  | succ fuel ih =>
    intro attempt delay lastError hinv h1 h2 hfail hsucc
    by_cases haj : attempt = j + 1
    · subst haj
      have hz : j + 1 - (j + 1) = 0 := by omega
      refine ⟨?_, ?_, ?_, ?_⟩ <;> simp [RetryStrategy.go, hsucc, hz]
    · have hlt : attempt ≤ j := by omega
      have hop : op attempt = .error (errAt attempt) := hfail attempt le_rfl hlt
      have hne : attempt ≠ s.maxAttempts := by omega
      have hinv1 : (attempt + 1) + fuel = s.maxAttempts + 1 := by omega
      have hfail1 : ∀ n, attempt + 1 ≤ n → n ≤ j → op n = .error (errAt n) :=
        fun n hn1 hn2 => hfail n (by omega) hn2
      have := ih (attempt + 1) (min (delay * s.backoffMultiplier) s.maxDelayMs)
        (some (errAt attempt)) hinv1 (by omega) h2 hfail1 hsucc
      obtain ⟨hr, hc, hl, hs⟩ := this
      have hrange : j + 1 - attempt = (j - attempt) + 1 := by omega
      have hrange1 : j + 1 - (attempt + 1) = j - attempt := by omega
      refine ⟨?_, ?_, ?_, ?_⟩
      · simpa [RetryStrategy.go, hop, hne] using hr
      · simp only [RetryStrategy.go, hop, if_neg hne]
        simp only [hc]
        omega
      · simp only [RetryStrategy.go, hop, if_neg hne]
        simp only [hl, hrange1]
        rw [hrange, List.range'_succ, List.map_cons]
      · simp only [RetryStrategy.go, hop, if_neg hne, List.length_cons]
        omega

/-- Claim C3's property, stated for an arbitrary strategy record:
an always-failing operation is invoked exactly `maxAttempts` times and the
result is `FDCRetryError` carrying `maxAttempts` and the last attempt's
error. -/
theorem RetryStrategy.execute_allFail {A : Type} (s : RetryStrategy)
    (op : Nat → Except FDCErr A) (errAt : Nat → FDCErr)
    (hmax : 1 ≤ s.maxAttempts)
    (hfail : ∀ n, 1 ≤ n → n ≤ s.maxAttempts → op n = .error (errAt n)) :
    (s.execute op).calls = s.maxAttempts ∧
    (s.execute op).result =
      .error (.retryError (retryMsg s.maxAttempts) s.maxAttempts
        (some (errAt s.maxAttempts))) :=
  RetryStrategy.go_allFail s op errAt s.maxAttempts 1 s.initialDelayMs none
    (by omega) hmax hfail

/-- C3: For every maxAttempts ≥ 1, RetryStrategy.execute applied to an
operation that always fails calls the operation exactly maxAttempts times
and then fails with RetryExhausted (FDCRetryError) carrying
attempts = maxAttempts and the last underlying error. -/
theorem claim_C3 {A : Type} (s : RetryStrategy)
    (op : Nat → Except FDCErr A) (errAt : Nat → FDCErr)
    (hmax : 1 ≤ s.maxAttempts)
    (hfail : ∀ n, 1 ≤ n → n ≤ s.maxAttempts → op n = .error (errAt n)) :
    (s.execute op).calls = s.maxAttempts ∧
    (s.execute op).result =
      .error (.retryError (retryMsg s.maxAttempts) s.maxAttempts
        (some (errAt s.maxAttempts))) :=
  RetryStrategy.execute_allFail s op errAt hmax hfail

theorem claim_C3_witness :
    (1 ≤ (3 : Nat)) ∧
    ((⟨3, 1000, 60000, 2⟩ : RetryStrategy).execute
        (fun _ => (.error (.plainError "boom") : Except FDCErr Nat))).calls = 3 ∧
    ((⟨3, 1000, 60000, 2⟩ : RetryStrategy).execute
        (fun _ => (.error (.plainError "boom") : Except FDCErr Nat))).result =
      .error (.retryError (retryMsg 3) 3 (some (.plainError "boom"))) :=
  ⟨by norm_num,
   claim_C3 ⟨3, 1000, 60000, 2⟩ (fun _ => .error (.plainError "boom"))
     (fun _ => .plainError "boom") (by norm_num) (fun _ _ _ => rfl)⟩

/-- C4: For every k with k < maxAttempts, RetryStrategy.execute applied to
an operation that fails exactly k times and then succeeds calls the
operation exactly k+1 times, returns the success value, raises no
RetryExhausted, and invokes onRetry(i, error) exactly for attempts
i = 1..k, one log entry per sleep. -/
theorem claim_C4 {A : Type} (s : RetryStrategy)
    (op : Nat → Except FDCErr A) (errAt : Nat → FDCErr) (k : Nat) (v : A)
    (hk : k + 1 ≤ s.maxAttempts)
    (hfail : ∀ n, 1 ≤ n → n ≤ k → op n = .error (errAt n))
    (hsucc : op (k + 1) = .ok v) :
    (s.execute op).result = .ok v ∧
    (s.execute op).calls = k + 1 ∧
    (s.execute op).onRetryLog = (List.range' 1 k).map (fun i => (i, errAt i)) ∧
    (s.execute op).sleeps.length = k := by
  have h := RetryStrategy.go_failThenSucceed s op errAt v k s.maxAttempts
    1 s.initialDelayMs none (by omega) (by omega) hk hfail hsucc
  unfold RetryStrategy.execute
  obtain ⟨h1, h2, h3, h4⟩ := h
  refine ⟨h1, by omega, ?_, by omega⟩
  rw [h3]
  congr 1

theorem claim_C4_witness :
    (2 + 1 ≤ (5 : Nat)) ∧
    ((⟨5, 100, 60000, 2⟩ : RetryStrategy).execute
        (fun n => if n ≤ 2 then .error (.plainError "transient") else (.ok 42 : Except FDCErr Nat))).result = .ok 42 ∧
    ((⟨5, 100, 60000, 2⟩ : RetryStrategy).execute
        (fun n => if n ≤ 2 then .error (.plainError "transient") else (.ok 42 : Except FDCErr Nat))).calls = 2 + 1 ∧
    ((⟨5, 100, 60000, 2⟩ : RetryStrategy).execute
        (fun n => if n ≤ 2 then .error (.plainError "transient") else (.ok 42 : Except FDCErr Nat))).onRetryLog =
      (List.range' 1 2).map (fun i => (i, FDCErr.plainError "transient")) ∧
    ((⟨5, 100, 60000, 2⟩ : RetryStrategy).execute
        (fun n => if n ≤ 2 then .error (.plainError "transient") else (.ok 42 : Except FDCErr Nat))).sleeps.length = 2 :=
  ⟨by norm_num,
   claim_C4 ⟨5, 100, 60000, 2⟩
     (fun n => if n ≤ 2 then .error (.plainError "transient") else .ok 42)
     (fun _ => .plainError "transient") 2 42 (by norm_num)
     (fun n _ h2 => by simp [h2]) rfl⟩

/-- `AttestationRequestParams` of FDCTypes.ts: three required string
fields, four optional ones. -/
structure AttestationRequestParams where
  apiUrl : String
  postProcessJq : String
  abiSignature : String
  httpMethod : Option String := none
  headers : Option String := none
  queryParams : Option String := none
  body : Option String := none
  deriving DecidableEq, Repr

/-- `AttestationRequest` of FDCTypes.ts: the request body sent to the
verifier server. -/
structure AttestationRequest where
  url : String
  httpMethod : String
  headers : String
  queryParams : String
  body : String
  postProcessJq : String
  abiSignature : String
  deriving DecidableEq, Repr

/-- The `requestBody` object built at FDCService.ts lines 166-174:
no validation of the params, only `||` defaulting. -/
def buildRequestBody (params : AttestationRequestParams) : AttestationRequest :=
  { url := params.apiUrl
    httpMethod := jsOrStr params.httpMethod "GET"
    headers := jsOrStr params.headers "\x7b\x7d"
    queryParams := jsOrStr params.queryParams "\x7b\x7d"
    body := jsOrStr params.body "\x7b\x7d"
    postProcessJq := params.postProcessJq
    abiSignature := params.abiSignature }

/-- `PreparedAttestationRequest` of FDCTypes.ts. -/
structure PreparedAttestationRequest where
  status : String
  abiEncodedRequest : String
  deriving DecidableEq, Repr

/-- One response of the verifier (preparer) server, as observed by the
closure at FDCService.ts lines 188-215: either a non-ok HTTP response
(`response.ok` false) or a success-shaped JSON body with a `status` field
and an `abiEncodedRequest` field. -/
inductive VerifierResponse where
  | httpError (status : Nat) (statusText : String)
  | okJson (status : String) (abiEncodedRequest : String)
  deriving DecidableEq, Repr

/-- The closure passed to `retryStrategy.execute` at FDCService.ts lines
188-215, applied to one verifier response: a non-ok response throws
`FDCError(..., "VERIFIER_ERROR")`; a success-shaped response whose status
is not "VALID" throws `FDCError(..., "INVALID_REQUEST")`; otherwise the
parsed data is returned. -/
def prepareOp (resp : VerifierResponse) : Except FDCErr PreparedAttestationRequest :=
  match resp with
  | .httpError status statusText =>
    .error (.fdcError
      ("Verifier server returned status " ++ toString status ++ ": " ++ statusText)
      "VERIFIER_ERROR")
  | .okJson status abiEncodedRequest =>
    if status ≠ "VALID" then
      .error (.fdcError ("Invalid attestation request: " ++ status) "INVALID_REQUEST")
    else
      .ok { status := status, abiEncodedRequest := abiEncodedRequest }

/-- `FDCService.prepareAttestationRequest` (FDCService.ts lines 158-216):
builds the request body from `params` (unvalidated), constructs a
RetryStrategy from the retry options, and runs the fetch closure under it.
The verifier's behaviour is modelled as a function from the attempt number
to that attempt's response; each invocation of the closure performs
exactly one network request to the verifier, so `(·).calls` is the number
of network requests issued. -/
def prepareAttestationRequest (params : AttestationRequestParams)
    (retryOptions : RetryOptions) (responses : Nat → VerifierResponse) :
    ExecResult PreparedAttestationRequest :=
  let _requestBody := buildRequestBody params
  (RetryStrategy.fromOptions retryOptions).execute (fun n => prepareOp (responses n))

/-- The constructed strategy always has a positive attempt budget: `|| 10`
turns both `undefined` and `0` into the default. -/
theorem RetryStrategy.fromOptions_maxAttempts_pos (options : RetryOptions) :
    1 ≤ (RetryStrategy.fromOptions options).maxAttempts := by
  cases h : options.maxAttempts with
  | none => simp [RetryStrategy.fromOptions, jsOrNat, h]
  | some v =>
    by_cases hv : v = 0
    · simp [RetryStrategy.fromOptions, jsOrNat, h, hv]
    · simp [RetryStrategy.fromOptions, jsOrNat, h, hv]
      omega

/-- C5 counterexample: constructing a RetryStrategy with maxAttempts = 0
does not fail with a configuration error; the constructor silently
substitutes the default 10, and executing an always-failing operation
under the resulting strategy invokes the operation 10 times — so the
operation very much is invoked. -/
theorem claim_C5_counterexample :
    (RetryStrategy.fromOptions { maxAttempts := some 0 }).maxAttempts = 10 ∧
    ((RetryStrategy.fromOptions { maxAttempts := some 0 }).execute
        (fun _ => (.error (.plainError "always fails") : Except FDCErr Nat))).calls = 10 :=
  ⟨rfl, rfl⟩

/-- C5 amended: constructing a RetryStrategy with maxAttempts = 0 is not
rejected: the constructor's `options.maxAttempts || 10` treats 0 as
unset, so the strategy silently gets the default budget of 10 attempts
and operations run under it are invoked. -/
theorem claim_C5 (options : RetryOptions) (h : options.maxAttempts = some 0) :
    (RetryStrategy.fromOptions options).maxAttempts = 10 := by
  unfold RetryStrategy.fromOptions jsOrNat
  simp [h]

theorem claim_C5_witness :
    ({ maxAttempts := some 0 : RetryOptions }.maxAttempts = some 0) ∧
    (RetryStrategy.fromOptions { maxAttempts := some 0 }).maxAttempts = 10 :=
  ⟨rfl, claim_C5 { maxAttempts := some 0 } rfl⟩

/-- C1 counterexample: with maxAttempts = 2 and a verifier that always
returns the success-shaped body with status "INVALID", the closure is
invoked twice — the non-VALID response is retried — and the final failure
is the RETRY_EXHAUSTED FDCRetryError wrapping the INVALID_REQUEST
FDCError, not a non-retryable validation error raised on first sight. -/
theorem claim_C1_counterexample :
    (prepareAttestationRequest
        { apiUrl := "https://api.example.com", postProcessJq := ".x", abiSignature := "sig" }
        { maxAttempts := some 2, initialDelayMs := some 1 }
        (fun _ => .okJson "INVALID" "0xdead")).calls = 2 ∧
    (prepareAttestationRequest
        { apiUrl := "https://api.example.com", postProcessJq := ".x", abiSignature := "sig" }
        { maxAttempts := some 2, initialDelayMs := some 1 }
        (fun _ => .okJson "INVALID" "0xdead")).result =
      .error (.retryError (retryMsg 2) 2
        (some (.fdcError "Invalid attestation request: INVALID" "INVALID_REQUEST"))) :=
  ⟨rfl, rfl⟩

/-- C1 amended: a success-shaped verifier response whose status differs
from "VALID" makes the closure throw FDCError with code INVALID_REQUEST,
and RetryStrategy retries it like any other failure: if every attempt up
to the strategy's budget m receives such a response, the verifier is
called exactly m times and the operation ends with FDCRetryError
(RETRY_EXHAUSTED) wrapping the last INVALID_REQUEST error — not with a
non-retryable validation error after the first response. -/
theorem claim_C1 (params : AttestationRequestParams) (retryOptions : RetryOptions)
    (responses : Nat → VerifierResponse) (st enc : Nat → String)
    (h : ∀ n, 1 ≤ n → n ≤ (RetryStrategy.fromOptions retryOptions).maxAttempts →
      responses n = .okJson (st n) (enc n) ∧ st n ≠ "VALID") :
    (prepareAttestationRequest params retryOptions responses).calls =
      (RetryStrategy.fromOptions retryOptions).maxAttempts ∧
    (prepareAttestationRequest params retryOptions responses).result =
      .error (.retryError (retryMsg (RetryStrategy.fromOptions retryOptions).maxAttempts)
        (RetryStrategy.fromOptions retryOptions).maxAttempts
        (some (.fdcError
          ("Invalid attestation request: " ++
            st (RetryStrategy.fromOptions retryOptions).maxAttempts)
          "INVALID_REQUEST"))) := by
  have hfail : ∀ n, 1 ≤ n → n ≤ (RetryStrategy.fromOptions retryOptions).maxAttempts →
      prepareOp (responses n) =
        .error (.fdcError ("Invalid attestation request: " ++ st n) "INVALID_REQUEST") := by
    intro n h1 h2
    obtain ⟨hr, hs⟩ := h n h1 h2
    simp [prepareOp, hr, hs]
  exact RetryStrategy.execute_allFail (RetryStrategy.fromOptions retryOptions)
    (fun n => prepareOp (responses n))
    (fun n => .fdcError ("Invalid attestation request: " ++ st n) "INVALID_REQUEST")
    (RetryStrategy.fromOptions_maxAttempts_pos retryOptions) hfail

theorem claim_C1_witness :
    (prepareAttestationRequest
        { apiUrl := "https://api.example.com", postProcessJq := ".x", abiSignature := "sig" }
        { maxAttempts := some 3 }
        (fun _ => .okJson "MIC_MISMATCH" "0x")).calls = 3 ∧
    (prepareAttestationRequest
        { apiUrl := "https://api.example.com", postProcessJq := ".x", abiSignature := "sig" }
        { maxAttempts := some 3 }
        (fun _ => .okJson "MIC_MISMATCH" "0x")).result =
      .error (.retryError (retryMsg 3) 3
        (some (.fdcError "Invalid attestation request: MIC_MISMATCH" "INVALID_REQUEST"))) :=
  claim_C1
    { apiUrl := "https://api.example.com", postProcessJq := ".x", abiSignature := "sig" }
    { maxAttempts := some 3 }
    (fun _ => .okJson "MIC_MISMATCH" "0x") (fun _ => "MIC_MISMATCH") (fun _ => "0x")
    (by intro n h1 h2; exact ⟨rfl, by simp⟩)

/-- `ProofData` of FDCTypes.ts. -/
structure ProofData where
  response_hex : String
  attestation_type : String
  proof : List String
  deriving DecidableEq, Repr

/-- One entry of the ProofCache map (FDCService.ts line 41):
the proof data plus the `Date.now()` at insertion. -/
structure CacheEntry where
  data : ProofData
  timestamp : Nat
  deriving DecidableEq, Repr

/-- Class ProofCache (FDCService.ts lines 40-72): a TTL and a key-to-entry
map, the map modelled as a function. Time (`Date.now()`) is passed
explicitly into each operation. -/
structure ProofCache where
  ttl : Nat
  cache : String → Option CacheEntry

/-- The ProofCache constructor (FDCService.ts lines 44-46): empty map. -/
def ProofCache.new (ttlMs : Nat) : ProofCache :=
  { ttl := ttlMs, cache := fun _ => none }

/-- `ProofCache.get` (FDCService.ts lines 48-59), with `now` the value of
`Date.now()`: a missing entry yields null; an entry whose age
`now - timestamp` exceeds the TTL is deleted and null is returned;
otherwise the stored data is returned.  The age subtraction is done in
`Int`, as JavaScript subtraction of timestamps is not truncated. -/
def ProofCache.get (c : ProofCache) (key : String) (now : Nat) :
    Option ProofData × ProofCache :=
  match c.cache key with
  | none => (none, c)
  | some entry =>
    if (now : Int) - (entry.timestamp : Int) > (c.ttl : Int) then
      (none, { c with cache := fun k => if k = key then none else c.cache k })
    else
      (some entry.data, c)

/-- `ProofCache.set` (FDCService.ts lines 61-63), with `now` the value of
`Date.now()`. -/
def ProofCache.set (c : ProofCache) (key : String) (data : ProofData) (now : Nat) :
    ProofCache :=
  { c with cache := fun k => if k = key then some { data := data, timestamp := now } else c.cache k }

/-- `ProofCache.generateKey` (FDCService.ts lines 69-71). -/
def ProofCache.generateKey (abiEncodedRequest : String) (roundId : Nat) : String :=
  abiEncodedRequest ++ ":" ++ toString roundId

/-- C6: `set(F, R)` immediately followed by `get(F)` returns R; once
`now - insertedAt` exceeds the TTL, `get(F)` returns absent and evicts the
entry, and on a cache whose entry for F is absent every further `get(F)`
(no intervening `set`) returns absent and keeps the entry absent — the
expired record is never resurrected. -/
theorem claim_C6 (c : ProofCache) (key : String) (R : ProofData) (t : Nat) :
    (((c.set key R t).get key t).fst = some R) ∧
    (∀ now2 : Nat, (now2 : Int) - (t : Int) > (c.ttl : Int) →
      ((c.set key R t).get key now2).fst = none ∧
      ((c.set key R t).get key now2).snd.cache key = none) ∧
    (∀ (c' : ProofCache) (now3 : Nat), c'.cache key = none →
      (c'.get key now3).fst = none ∧ (c'.get key now3).snd.cache key = none) := by
  refine ⟨?_, ?_, ?_⟩
  · simp [ProofCache.get, ProofCache.set]
    rw [if_neg (by omega)]
  · intro now2 h2
    constructor
    · simp [ProofCache.get, ProofCache.set]
      rw [if_pos (by omega)]
    · simp [ProofCache.get, ProofCache.set]
      rw [if_pos (by omega)]
      simp
  · intro c' now3 h3
    constructor
    · simp [ProofCache.get, h3]
    · simp [ProofCache.get, h3]

theorem claim_C6_witness :
    ((((ProofCache.new 100).set "0xdead:5" ⟨"0xbeef", "Web2Json", []⟩ 1000).get "0xdead:5" 1000).fst =
      some ⟨"0xbeef", "Web2Json", []⟩) ∧
    ((1101 : Int) - (1000 : Int) > ((ProofCache.new 100).ttl : Int)) ∧
    ((((ProofCache.new 100).set "0xdead:5" ⟨"0xbeef", "Web2Json", []⟩ 1000).get "0xdead:5" 1101).fst = none) ∧
    ((((ProofCache.new 100).set "0xdead:5" ⟨"0xbeef", "Web2Json", []⟩ 1000).get "0xdead:5" 1101).snd.cache "0xdead:5" = none) := by
  have h := claim_C6 (ProofCache.new 100) "0xdead:5" ⟨"0xbeef", "Web2Json", []⟩ 1000
  have hgt : (1101 : Int) - (1000 : Int) > ((ProofCache.new 100).ttl : Int) := by
    simp [ProofCache.new]
  exact ⟨h.1, hgt, (h.2.1 1101 hgt).1, (h.2.1 1101 hgt).2⟩

/-- `PollingOptions` of FDCTypes.ts (the progress callback is a pure side
effect with no control-flow influence and is not modelled). -/
structure PollingOptions where
  checkIntervalMs : Option Nat := none
  maxWaitTimeMs : Option Nat := none
  deriving DecidableEq, Repr

/-- JavaScript truthiness of an optional number, as used by the guard
`pollingOptions.maxWaitTimeMs && ...` (FDCService.ts lines 296 and 374):
`undefined` and `0` are falsy. -/
def truthyN : Option Nat → Bool
  | none => false
  | some 0 => false
  | some (_ + 1) => true

/-- One iteration of the `while (true)` loop of
`waitForRoundFinalization` (FDCService.ts lines 285-316), reduced to its
exit behaviour.  `fin i` is what `relay.isFinalized` returns on the i-th
iteration; `elapsed i` is `Date.now() - startTime` at the i-th iteration's
deadline check.  The iteration returns (FDCService.ts line 292) when the
round is finalized, throws `FDCTimeoutError` (lines 297-300) when
`maxWaitTimeMs` is truthy and the elapsed time exceeds it, and otherwise
(`none`) sleeps and loops. -/
def waitExit (fin : Nat → Bool) (maxWaitTimeMs : Option Nat)
    (elapsed : Nat → Nat) (i : Nat) : Option (Except FDCErr Unit) :=
  if fin i then
    some (.ok ())
  else if truthyN maxWaitTimeMs ∧ elapsed i > maxWaitTimeMs.getD 0 then
    some (.error (.timeoutError
      ("Round did not finalize within " ++ toString (maxWaitTimeMs.getD 0) ++ "ms")
      (maxWaitTimeMs.getD 0)))
  else
    none

/-- The `waitForRoundFinalization` loop terminates iff some iteration
exits (returns or throws). -/
def waitTerminates (fin : Nat → Bool) (maxWaitTimeMs : Option Nat)
    (elapsed : Nat → Nat) : Prop :=
  ∃ i, (waitExit fin maxWaitTimeMs elapsed i).isSome

/-- One response of the DA Layer proof endpoint as observed by the loop at
FDCService.ts lines 356-388: a non-ok HTTP response, or a success-shaped
JSON body (whose `response_hex` may still be empty, i.e. falsy). -/
inductive DAResponse where
  | notOk (status : Nat)
  | okJson (data : ProofData)
  deriving DecidableEq, Repr

/-- The deadline check shared by every non-success iteration of the
`retrieveProof` polling loop (FDCService.ts lines 373-379). -/
def proofTimeoutCheck (maxWaitTimeMs : Option Nat) (elapsed : Nat → Nat)
    (i : Nat) : Option (Except FDCErr ProofData) :=
  if truthyN maxWaitTimeMs ∧ elapsed i > maxWaitTimeMs.getD 0 then
    some (.error (.timeoutError
      ("Proof generation timed out after " ++ toString (maxWaitTimeMs.getD 0) ++ "ms")
      (maxWaitTimeMs.getD 0)))
  else
    none

/-- One iteration of the `while (true)` polling loop of `retrieveProof`
(FDCService.ts lines 356-388), reduced to its exit behaviour: a response
that is ok and has a truthy `response_hex` breaks with the proof;
otherwise the deadline is checked and, when not exceeded, the loop sleeps
and continues. -/
def proofExit (svc : Nat → DAResponse) (maxWaitTimeMs : Option Nat)
    (elapsed : Nat → Nat) (i : Nat) : Option (Except FDCErr ProofData) :=
  match svc i with
  | .okJson d =>
    if d.response_hex ≠ "" then some (.ok d)
    else proofTimeoutCheck maxWaitTimeMs elapsed i
  | .notOk _ => proofTimeoutCheck maxWaitTimeMs elapsed i

/-- The `retrieveProof` polling loop terminates iff some iteration exits. -/
def proofTerminates (svc : Nat → DAResponse) (maxWaitTimeMs : Option Nat)
    (elapsed : Nat → Nat) : Prop :=
  ∃ i, (proofExit svc maxWaitTimeMs elapsed i).isSome

/-- C2 counterexample: with maxWaitTimeMs absent, an oracle that never
reports the round finalized keeps the waitForRoundFinalization loop
running forever — no iteration ever exits — and with maxWaitTimeMs = 0, a
proof service that never returns a well-formed proof keeps the
retrieveProof loop running forever, because the deadline guard
`maxWaitTimeMs && elapsed > maxWaitTimeMs` is never truthy. -/
theorem claim_C2_counterexample :
    ¬ waitTerminates (fun _ => false) none (fun i => 30000 * i) ∧
    ¬ proofTerminates (fun _ => .notOk 404) (some 0) (fun i => 10000 * i) := by
  constructor
  · rintro ⟨i, h⟩
    simp [waitExit, truthyN] at h
  · rintro ⟨i, h⟩
    simp [proofExit, proofTimeoutCheck, truthyN] at h

/-- C2 amended: when maxWaitTimeMs is a positive value and real time grows
without bound over the iterations (each iteration sleeps a positive
interval), both polling loops terminate: some iteration either succeeds
or throws FDCTimeoutError.  When maxWaitTimeMs is absent or zero the
loops need not terminate (see the counterexample). -/
theorem claim_C2 (fin : Nat → Bool) (svc : Nat → DAResponse) (w : Nat)
    (elapsedW elapsedP : Nat → Nat) (hw : 0 < w)
    (hW : ∀ B, ∃ i, B < elapsedW i) (hP : ∀ B, ∃ i, B < elapsedP i) :
    waitTerminates fin (some w) elapsedW ∧
    proofTerminates svc (some w) elapsedP := by
  have htruthy : truthyN (some w) = true := by
    cases w with
    | zero => omega
    | succ n => rfl
  constructor
  · obtain ⟨i, hi⟩ := hW w
    refine ⟨i, ?_⟩
    by_cases hf : fin i
    · simp [waitExit, hf]
    · simp [waitExit, hf, htruthy, Option.getD]
      omega
  · obtain ⟨i, hi⟩ := hP w
    refine ⟨i, ?_⟩
    cases hs : svc i with
    | okJson d =>
      by_cases hd : d.response_hex = ""
      · simp [proofExit, hs, hd, proofTimeoutCheck, htruthy, Option.getD]
        omega
      · simp [proofExit, hs, hd]
    | notOk st =>
      simp [proofExit, hs, proofTimeoutCheck, htruthy, Option.getD]
      omega

theorem claim_C2_witness :
    (0 < 1) ∧
    waitTerminates (fun _ => false) (some 1) (fun i => i) ∧
    proofTerminates (fun _ => .notOk 500) (some 1) (fun i => i) :=
  ⟨by norm_num,
   (claim_C2 (fun _ => false) (fun _ => .notOk 500) 1 (fun i => i) (fun i => i)
     (by norm_num) (fun B => ⟨B + 1, Nat.lt_succ_self B⟩) (fun B => ⟨B + 1, Nat.lt_succ_self B⟩)).1,
   (claim_C2 (fun _ => false) (fun _ => .notOk 500) 1 (fun i => i) (fun i => i)
     (by norm_num) (fun B => ⟨B + 1, Nat.lt_succ_self B⟩) (fun B => ⟨B + 1, Nat.lt_succ_self B⟩)).2⟩

/-- The initial poll interval of `waitForRoundFinalization`
(FDCService.ts line 282): `pollingOptions.checkIntervalMs || 30000`,
as a rational because the adaptive update multiplies by the float 1.5
(exact on these values). -/
def initialCheckInterval (checkIntervalMs : Option Nat) : Rat :=
  (jsOrNat checkIntervalMs 30000 : Nat)

/-- The value of `checkInterval` passed to `sleep` on the n-th
non-finalized iteration (n ≥ 1) of `waitForRoundFinalization`, starting
from initial interval `c0` (`intervalSeq c0 0 = c0` is the value before
any iteration).  On iteration n, `consecutiveChecks` has just been
incremented to n, and FDCService.ts lines 305-307 grow the interval by
1.5 (capped at 60000) only when `consecutiveChecks > 5 && checkInterval
< 60000`. -/
def intervalSeq (c0 : Rat) : Nat → Rat
  | 0 => c0
  | n + 1 =>
    let ci := intervalSeq c0 n
    if n + 1 > 5 ∧ ci < 60000 then min (ci * (3 / 2)) 60000 else ci

/-- Unfolding equation for `intervalSeq` at a successor index. -/
theorem intervalSeq_succ (c0 : Rat) (n : Nat) :
    intervalSeq c0 (n + 1) =
      if n + 1 > 5 ∧ intervalSeq c0 n < 60000 then
        min (intervalSeq c0 n * (3 / 2)) 60000
      else intervalSeq c0 n := rfl

/-- The interval sequence never drops below 0 when started at a
non-negative interval. -/
theorem intervalSeq_nonneg (c0 : Rat) (h : 0 ≤ c0) (n : Nat) :
    0 ≤ intervalSeq c0 n := by
  induction n with
  | zero => exact h
  | succ n ih =>
    rw [intervalSeq_succ]
    split
    · apply le_min
      · positivity
      · norm_num
    · exact ih

/-- C7 counterexample: with initial checkIntervalMs = 100000 the very
first poll interval is 100000 ms, which already exceeds the 60-second
cap — the cap bounds only the adaptive growth, it is never applied to the
caller-supplied initial interval. -/
theorem claim_C7_counterexample :
    intervalSeq (initialCheckInterval (some 100000)) 1 = 100000 ∧
    ¬ (intervalSeq (initialCheckInterval (some 100000)) 1 ≤ 60000) := by
  constructor
  · norm_num [intervalSeq, initialCheckInterval, jsOrNat]
  · norm_num [intervalSeq, initialCheckInterval, jsOrNat]

/-- C7 amended: for every non-negative initial interval the sequence of
successive poll intervals is non-decreasing and bounded by
max(initial, 60000); it stays equal to the initial interval through the
first 5 non-finalized checks (growth by 1.5 starts on the 6th); and
whenever the initial interval is at most 60000 the whole sequence stays
within the 60-second cap.  An initial interval above 60000 exceeds the
cap forever (see the counterexample). -/
theorem claim_C7 (c0 : Rat) (h0 : 0 ≤ c0) (n : Nat) :
    intervalSeq c0 n ≤ intervalSeq c0 (n + 1) ∧
    intervalSeq c0 n ≤ max c0 60000 ∧
    (n ≤ 5 → intervalSeq c0 n = c0) ∧
    (c0 ≤ 60000 → intervalSeq c0 n ≤ 60000) ∧
    (c0 < 60000 → intervalSeq c0 6 = min (c0 * (3 / 2)) 60000) := by
  refine ⟨?_, ?_, ?_, ?_, ?_⟩
  · rw [intervalSeq_succ]
    split
    · next hcond =>
      apply le_min
      · nlinarith [intervalSeq_nonneg c0 h0 n]
      · exact le_of_lt hcond.2
    · exact le_rfl
  · induction n with
    | zero => exact le_max_left _ _
    | succ n ih =>
      rw [intervalSeq_succ]
      split
      · exact le_trans (min_le_right _ _) (le_max_right _ _)
      · exact ih
  · induction n with
    | zero => intro _; rfl
    | succ n ih =>
      intro hn
      rw [intervalSeq_succ]
      rw [if_neg]
      · exact ih (by omega)
      · rintro ⟨hgt, _⟩
        omega
  · intro hc
    induction n with
    | zero => exact hc
    | succ n ih =>
      rw [intervalSeq_succ]
      split
      · exact min_le_right _ _
      · exact ih
  · intro hc
    have h5 : intervalSeq c0 5 = c0 := by
      norm_num [intervalSeq]
    rw [intervalSeq_succ, h5, if_pos]
    exact ⟨by omega, hc⟩

theorem claim_C7_witness :
    ((0 : Rat) ≤ 40000) ∧
    intervalSeq 40000 6 ≤ intervalSeq 40000 7 ∧
    intervalSeq 40000 6 ≤ max 40000 60000 ∧
    ((5 : Nat) ≤ 5 → intervalSeq 40000 5 = 40000) ∧
    ((40000 : Rat) ≤ 60000 → intervalSeq 40000 6 ≤ 60000) ∧
    ((40000 : Rat) < 60000 → intervalSeq 40000 6 = min (40000 * (3 / 2)) 60000) :=
  ⟨by norm_num,
   (claim_C7 40000 (by norm_num) 6).1,
   (claim_C7 40000 (by norm_num) 6).2.1,
   (claim_C7 40000 (by norm_num) 5).2.2.1,
   (claim_C7 40000 (by norm_num) 6).2.2.2.1,
   (claim_C7 40000 (by norm_num) 6).2.2.2.2⟩

/-- `AttestationType` of FDCTypes.ts. -/
inductive AttestationType where
  | Web2Json
  | PaymentVerification
  | BalanceDecreasing
  | AddressValidity
  | BlockHeight
  deriving DecidableEq, Repr

/-- `SourceId` of FDCTypes.ts. -/
inductive SourceId where
  | PublicWeb2
  deriving DecidableEq, Repr

/-- `Partial<AttestationRequestParams>`: the `params` field of
AttestationRequestBuilder (WeatherInsuranceBase.ts builder part, line
131). -/
structure PartialParams where
  apiUrl : Option String := none
  postProcessJq : Option String := none
  abiSignature : Option String := none
  httpMethod : Option String := none
  headers : Option String := none
  queryParams : Option String := none
  body : Option String := none
  deriving DecidableEq, Repr

/-- The state of class AttestationRequestBuilder (builder part of
WeatherInsuranceBase.ts, lines 130-133); a freshly constructed builder
has empty params and the Web2Json/PublicWeb2 defaults. -/
structure AttestationRequestBuilder where
  params : PartialParams := {}
  attestationType : AttestationType := .Web2Json
  sourceId : SourceId := .PublicWeb2
  deriving DecidableEq, Repr

/-- `createAttestationRequest()`: a new builder instance. -/
def createAttestationRequest : AttestationRequestBuilder := {}

/-- Builder method `url`. -/
def AttestationRequestBuilder.url (b : AttestationRequestBuilder) (apiUrl : String) :
    AttestationRequestBuilder :=
  { b with params := { b.params with apiUrl := some apiUrl } }

/-- Builder method `jqFilter`. -/
def AttestationRequestBuilder.jqFilter (b : AttestationRequestBuilder) (postProcessJq : String) :
    AttestationRequestBuilder :=
  { b with params := { b.params with postProcessJq := some postProcessJq } }

/-- Builder method `abiSignature`. -/
def AttestationRequestBuilder.abiSignature (b : AttestationRequestBuilder) (abiSignature : String) :
    AttestationRequestBuilder :=
  { b with params := { b.params with abiSignature := some abiSignature } }

/-- Builder method `method`. -/
def AttestationRequestBuilder.method (b : AttestationRequestBuilder) (httpMethod : String) :
    AttestationRequestBuilder :=
  { b with params := { b.params with httpMethod := some httpMethod } }

/-- Builder method `headers` (string overload; the object overload only
stringifies first). -/
def AttestationRequestBuilder.headers (b : AttestationRequestBuilder) (headers : String) :
    AttestationRequestBuilder :=
  { b with params := { b.params with headers := some headers } }

/-- Builder method `queryParams` (string overload). -/
def AttestationRequestBuilder.queryParams (b : AttestationRequestBuilder) (queryParams : String) :
    AttestationRequestBuilder :=
  { b with params := { b.params with queryParams := some queryParams } }

/-- Builder method `body` (string overload). -/
def AttestationRequestBuilder.body (b : AttestationRequestBuilder) (body : String) :
    AttestationRequestBuilder :=
  { b with params := { b.params with body := some body } }

/-- Builder method `type`. -/
def AttestationRequestBuilder.type (b : AttestationRequestBuilder) (attestationType : AttestationType) :
    AttestationRequestBuilder :=
  { b with attestationType := attestationType }

/-- Builder method `source`. -/
def AttestationRequestBuilder.source (b : AttestationRequestBuilder) (sourceId : SourceId) :
    AttestationRequestBuilder :=
  { b with sourceId := sourceId }

/-- JavaScript falsiness of an optional string, as tested by
`!this.params.apiUrl` etc. in build(): `undefined` and `""` are falsy. -/
def jsFalsyStr : Option String → Bool
  | none => true
  | some s => s == ""

/-- The value returned by `AttestationRequestBuilder.build()`. -/
structure BuildResult where
  params : AttestationRequestParams
  attestationType : AttestationType
  sourceId : SourceId
  deriving DecidableEq, Repr

/-- `AttestationRequestBuilder.build()` (WeatherInsuranceBase.ts builder
part, lines 215-244): throw a plain Error if apiUrl, postProcessJq or
abiSignature is falsy (unset or empty); otherwise assemble the params,
defaulting httpMethod to "GET" and headers/queryParams/body to the
two-character string of an open and a close curly brace. -/
def AttestationRequestBuilder.build (b : AttestationRequestBuilder) :
    Except String BuildResult :=
  if jsFalsyStr b.params.apiUrl then .error "API URL is required"
  else if jsFalsyStr b.params.postProcessJq then .error "JQ filter is required"
  else if jsFalsyStr b.params.abiSignature then .error "ABI signature is required"
  else .ok
    { params :=
        { apiUrl := b.params.apiUrl.getD ""
          postProcessJq := b.params.postProcessJq.getD ""
          abiSignature := b.params.abiSignature.getD ""
          httpMethod := some (jsOrStr b.params.httpMethod "GET")
          headers := some (jsOrStr b.params.headers "\x7b\x7d")
          queryParams := some (jsOrStr b.params.queryParams "\x7b\x7d")
          body := some (jsOrStr b.params.body "\x7b\x7d") }
      attestationType := b.attestationType
      sourceId := b.sourceId }

theorem jsFalsyStr_iff (o : Option String) :
    jsFalsyStr o = true ↔ (o = none ∨ o = some "") := by
  cases o with
  | none => simp [jsFalsyStr]
  | some s => simp [jsFalsyStr]

/-- C10: build() throws exactly when apiUrl, postProcessJq or
abiSignature is unset or the empty string; on every other builder state
it succeeds, and in the result httpMethod defaults to "GET",
headers/queryParams/body each default to the empty-JSON-object string
when not set, and attestationType/sourceId are the builder's, which a
fresh builder defaults to Web2Json/PublicWeb2. -/
theorem claim_C10 (b : AttestationRequestBuilder) :
    ((∃ msg, b.build = .error msg) ↔
      (b.params.apiUrl = none ∨ b.params.apiUrl = some "" ∨
       b.params.postProcessJq = none ∨ b.params.postProcessJq = some "" ∨
       b.params.abiSignature = none ∨ b.params.abiSignature = some "")) ∧
    (∀ r, b.build = .ok r →
      (b.params.httpMethod = none → r.params.httpMethod = some "GET") ∧
      (b.params.headers = none → r.params.headers = some "\x7b\x7d") ∧
      (b.params.queryParams = none → r.params.queryParams = some "\x7b\x7d") ∧
      (b.params.body = none → r.params.body = some "\x7b\x7d") ∧
      r.attestationType = b.attestationType ∧ r.sourceId = b.sourceId) ∧
    (createAttestationRequest.attestationType = .Web2Json ∧
     createAttestationRequest.sourceId = .PublicWeb2) := by
  refine ⟨?_, ?_, rfl, rfl⟩
  · have hrw : (b.params.apiUrl = none ∨ b.params.apiUrl = some "" ∨
        b.params.postProcessJq = none ∨ b.params.postProcessJq = some "" ∨
        b.params.abiSignature = none ∨ b.params.abiSignature = some "") ↔
        (jsFalsyStr b.params.apiUrl = true ∨ jsFalsyStr b.params.postProcessJq = true ∨
         jsFalsyStr b.params.abiSignature = true) := by
      rw [jsFalsyStr_iff, jsFalsyStr_iff, jsFalsyStr_iff]
      tauto
    rw [hrw]
    unfold AttestationRequestBuilder.build
    cases h1 : jsFalsyStr b.params.apiUrl <;>
      cases h2 : jsFalsyStr b.params.postProcessJq <;>
        cases h3 : jsFalsyStr b.params.abiSignature <;>
          simp
  · intro r hr
    unfold AttestationRequestBuilder.build at hr
    cases h1 : jsFalsyStr b.params.apiUrl <;>
      cases h2 : jsFalsyStr b.params.postProcessJq <;>
        cases h3 : jsFalsyStr b.params.abiSignature <;>
          rw [h1, h2, h3] at hr <;> simp at hr
    rw [← hr]
    refine ⟨?_, ?_, ?_, ?_, rfl, rfl⟩ <;> intro hnone <;> simp [jsOrStr, hnone]

theorem claim_C10_witness :
    ((∃ msg, createAttestationRequest.build = .error msg)) ∧
    (((createAttestationRequest.url "https://api.example.com").jqFilter ".x").abiSignature "sig").build =
      .ok { params := { apiUrl := "https://api.example.com", postProcessJq := ".x",
                        abiSignature := "sig", httpMethod := some "GET",
                        headers := some "\x7b\x7d", queryParams := some "\x7b\x7d",
                        body := some "\x7b\x7d" },
            attestationType := .Web2Json, sourceId := .PublicWeb2 } :=
  ⟨(claim_C10 createAttestationRequest).1.mpr (Or.inl rfl), rfl⟩

/-- `RoundInfo` of FDCTypes.ts (blockTimestamp is a bigint). -/
structure RoundInfo where
  roundId : Nat
  blockNumber : Nat
  blockTimestamp : Int
  explorerUrl : String
  deriving DecidableEq, Repr

/-- The collaborators of `executeAttestationWorkflow`:
`prepareResponses` is the verifier server's behaviour (per attempt);
`submit` is the outcome of `submitAttestationRequest` (FDCService.ts
lines 221-267), which performs exactly one `fdcHub.requestAttestation`
transaction per invocation; `retrieve` is the outcome of `retrieveProof`
(lines 322-401) for a given encoded request and round. -/
structure WorkflowEnv where
  prepareResponses : Nat → VerifierResponse
  submit : String → Except FDCErr RoundInfo
  retrieve : String → Nat → Except FDCErr ProofData

/-- Observable outcome of one `executeAttestationWorkflow` run: the
returned pair or the first propagated error, the number of network
requests made to the verifier (prepare phase), and the number of
invocations of `submitAttestationRequest` — each of which is one on-chain
`requestAttestation` call. -/
structure WorkflowResult where
  result : Except FDCErr (RoundInfo × ProofData)
  prepareCalls : Nat
  submitCalls : Nat

/-- `FDCService.executeAttestationWorkflow` (FDCService.ts lines
406-426): prepare (wrapped in RetryStrategy), then submit exactly once
(not wrapped), then retrieve; any error aborts the remaining phases and
propagates. -/
def executeAttestationWorkflow (params : AttestationRequestParams)
    (retryOptions : RetryOptions) (env : WorkflowEnv) : WorkflowResult :=
  let prep := prepareAttestationRequest params retryOptions env.prepareResponses
  match prep.result with
  | .error e => { result := .error e, prepareCalls := prep.calls, submitCalls := 0 }
  | .ok prepared =>
    match env.submit prepared.abiEncodedRequest with
    | .error e => { result := .error e, prepareCalls := prep.calls, submitCalls := 1 }
    | .ok roundInfo =>
      match env.retrieve prepared.abiEncodedRequest roundInfo.roundId with
      | .error e => { result := .error e, prepareCalls := prep.calls, submitCalls := 1 }
      | .ok proof =>
        { result := .ok (roundInfo, proof), prepareCalls := prep.calls, submitCalls := 1 }

/-- C9: the ledger-submission collaborator is never invoked more than
once per workflow run; whenever the prepare phase succeeds it is invoked
exactly once — not wrapped in RetryStrategy, so a submission failure is
not repeated — and a submission failure surfaces unchanged to the
caller. -/
theorem claim_C9 (params : AttestationRequestParams) (retryOptions : RetryOptions)
    (env : WorkflowEnv) :
    (executeAttestationWorkflow params retryOptions env).submitCalls ≤ 1 ∧
    (∀ p, (prepareAttestationRequest params retryOptions env.prepareResponses).result = .ok p →
      (executeAttestationWorkflow params retryOptions env).submitCalls = 1 ∧
      (∀ e, env.submit p.abiEncodedRequest = .error e →
        (executeAttestationWorkflow params retryOptions env).result = .error e)) := by
  constructor
  · simp only [executeAttestationWorkflow]
    cases hp : (prepareAttestationRequest params retryOptions env.prepareResponses).result with
    | error e => simp [hp]
    | ok p =>
      simp only [hp]
      cases hs : env.submit p.abiEncodedRequest with
      | error e => simp [hs]
      | ok ri =>
        simp only [hs]
        cases hr : env.retrieve p.abiEncodedRequest ri.roundId <;> simp [hr]
  · intro p hp
    simp only [executeAttestationWorkflow, hp]
    cases hs : env.submit p.abiEncodedRequest with
    | error e =>
      simp only [hs]
      refine ⟨trivial, ?_⟩
      intro e2 he2
      injection he2 with h
      rw [h]
    | ok ri =>
      simp only [hs]
      cases hr : env.retrieve p.abiEncodedRequest ri.roundId with
      | error e2 =>
        simp only [hr]
        refine ⟨trivial, ?_⟩
        intro e3 he3
        injection he3
      | ok pr =>
        simp only [hr]
        refine ⟨trivial, ?_⟩
        intro e3 he3
        injection he3

theorem claim_C9_witness :
    (executeAttestationWorkflow
        { apiUrl := "https://api.example.com", postProcessJq := ".x", abiSignature := "sig" }
        {}
        { prepareResponses := fun _ => .okJson "VALID" "0xdead"
          submit := fun _ => .error (.plainError "transaction reverted")
          retrieve := fun _ _ => .ok ⟨"0xbeef", "Web2Json", []⟩ }).submitCalls ≤ 1 ∧
    (executeAttestationWorkflow
        { apiUrl := "https://api.example.com", postProcessJq := ".x", abiSignature := "sig" }
        {}
        { prepareResponses := fun _ => .okJson "VALID" "0xdead"
          submit := fun _ => .error (.plainError "transaction reverted")
          retrieve := fun _ _ => .ok ⟨"0xbeef", "Web2Json", []⟩ }).submitCalls = 1 ∧
    (executeAttestationWorkflow
        { apiUrl := "https://api.example.com", postProcessJq := ".x", abiSignature := "sig" }
        {}
        { prepareResponses := fun _ => .okJson "VALID" "0xdead"
          submit := fun _ => .error (.plainError "transaction reverted")
          retrieve := fun _ _ => .ok ⟨"0xbeef", "Web2Json", []⟩ }).result =
      .error (.plainError "transaction reverted") := by
  have h := claim_C9
    { apiUrl := "https://api.example.com", postProcessJq := ".x", abiSignature := "sig" }
    {}
    { prepareResponses := fun _ => .okJson "VALID" "0xdead"
      submit := fun _ => .error (.plainError "transaction reverted")
      retrieve := fun _ _ => .ok ⟨"0xbeef", "Web2Json", []⟩ }
  have h2 := h.2 { status := "VALID", abiEncodedRequest := "0xdead" } rfl
  exact ⟨h.1, h2.1, h2.2 (.plainError "transaction reverted") rfl⟩

/-- C8 counterexample: params whose apiUrl is empty, passed to the
workflow engine, do not fail with a ValidationError before contacting the
preparer: the prepare phase performs a network request to the verifier (1
fetch) — the empty URL travels in the request body — and with a verifier
that answers VALID the whole workflow even succeeds. -/
theorem claim_C8_counterexample :
    (executeAttestationWorkflow
        { apiUrl := "", postProcessJq := ".x", abiSignature := "sig" }
        {}
        { prepareResponses := fun _ => .okJson "VALID" "0xdead"
          submit := fun _ => .ok ⟨5, 100, 1700000000, "https://explorer/round/5" ⟩
          retrieve := fun _ _ => .ok ⟨"0xbeef", "Web2Json", []⟩ }).prepareCalls = 1 ∧
    (executeAttestationWorkflow
        { apiUrl := "", postProcessJq := ".x", abiSignature := "sig" }
        {}
        { prepareResponses := fun _ => .okJson "VALID" "0xdead"
          submit := fun _ => .ok ⟨5, 100, 1700000000, "https://explorer/round/5" ⟩
          retrieve := fun _ _ => .ok ⟨"0xbeef", "Web2Json", []⟩ }).result =
      .ok (⟨5, 100, 1700000000, "https://explorer/round/5"⟩, ⟨"0xbeef", "Web2Json", []⟩) :=
  ⟨rfl, rfl⟩

/-- `WeatherInsuranceBase.createWeatherAttestationRequest`
(WeatherInsuranceBase.ts lines 69-81): the fluent builder chain ending in
build(). -/
def createWeatherAttestationRequest (apiUrl jqFilter abiSignature : String) :
    Except String BuildResult :=
  (((((createAttestationRequest.url apiUrl).jqFilter jqFilter).abiSignature
      abiSignature).type .Web2Json).source .PublicWeb2).build

/-- `WeatherInsuranceBase.executeWeatherAttestation` (WeatherInsuranceBase.ts
lines 86-101): build the request via the builder — a build error
propagates before the FDC service is ever consulted — then run the
workflow on the built params. -/
def executeWeatherAttestation (apiUrl jqFilter abiSignature : String)
    (retryOptions : RetryOptions) (env : WorkflowEnv) : WorkflowResult :=
  match createWeatherAttestationRequest apiUrl jqFilter abiSignature with
  | .error msg => { result := .error (.plainError msg), prepareCalls := 0, submitCalls := 0 }
  | .ok br => executeAttestationWorkflow br.params retryOptions env

/-- C8 amended: the required-field validation lives only in
AttestationRequestBuilder.build(), which throws a plain Error (not an
FDCValidationError); on the builder path an empty apiUrl, jq filter or
ABI signature therefore fails before any network call — no preparer
request and no submission is issued — while params handed directly to
the workflow engine are not validated at all (see the counterexample). -/
theorem claim_C8 (apiUrl jqFilter abiSignature : String)
    (retryOptions : RetryOptions) (env : WorkflowEnv)
    (h : apiUrl = "" ∨ jqFilter = "" ∨ abiSignature = "") :
    (executeWeatherAttestation apiUrl jqFilter abiSignature retryOptions env).prepareCalls = 0 ∧
    (executeWeatherAttestation apiUrl jqFilter abiSignature retryOptions env).submitCalls = 0 ∧
    (∃ msg, (executeWeatherAttestation apiUrl jqFilter abiSignature retryOptions env).result =
      .error (.plainError msg)) := by
  have hbuild : ∃ msg, createWeatherAttestationRequest apiUrl jqFilter abiSignature = .error msg := by
    unfold createWeatherAttestationRequest AttestationRequestBuilder.build
    rcases h with h | h | h
    · subst h
      simp [AttestationRequestBuilder.url, AttestationRequestBuilder.jqFilter,
        AttestationRequestBuilder.abiSignature, AttestationRequestBuilder.type,
        AttestationRequestBuilder.source, createAttestationRequest, jsFalsyStr]
    · subst h
      by_cases hu : apiUrl = "" <;>
        simp [AttestationRequestBuilder.url, AttestationRequestBuilder.jqFilter,
          AttestationRequestBuilder.abiSignature, AttestationRequestBuilder.type,
          AttestationRequestBuilder.source, createAttestationRequest, jsFalsyStr, hu]
    · subst h
      by_cases hu : apiUrl = "" <;> by_cases hj : jqFilter = "" <;>
        simp [AttestationRequestBuilder.url, AttestationRequestBuilder.jqFilter,
          AttestationRequestBuilder.abiSignature, AttestationRequestBuilder.type,
          AttestationRequestBuilder.source, createAttestationRequest, jsFalsyStr, hu, hj]
  obtain ⟨msg, hmsg⟩ := hbuild
  refine ⟨?_, ?_, ⟨msg, ?_⟩⟩ <;> simp [executeWeatherAttestation, hmsg]

theorem claim_C8_witness :
    ("" = "" ∨ ".x" = "" ∨ "sig" = "") ∧
    (executeWeatherAttestation "" ".x" "sig" {}
        { prepareResponses := fun _ => .okJson "VALID" "0xdead"
          submit := fun _ => .ok ⟨5, 100, 1700000000, "https://explorer/round/5"⟩
          retrieve := fun _ _ => .ok ⟨"0xbeef", "Web2Json", []⟩ }).prepareCalls = 0 ∧
    (executeWeatherAttestation "" ".x" "sig" {}
        { prepareResponses := fun _ => .okJson "VALID" "0xdead"
          submit := fun _ => .ok ⟨5, 100, 1700000000, "https://explorer/round/5"⟩
          retrieve := fun _ _ => .ok ⟨"0xbeef", "Web2Json", []⟩ }).submitCalls = 0 ∧
    (∃ msg, (executeWeatherAttestation "" ".x" "sig" {}
        { prepareResponses := fun _ => .okJson "VALID" "0xdead"
          submit := fun _ => .ok ⟨5, 100, 1700000000, "https://explorer/round/5"⟩
          retrieve := fun _ _ => .ok ⟨"0xbeef", "Web2Json", []⟩ }).result =
      .error (.plainError msg)) := by
  have h := claim_C8 "" ".x" "sig" {}
    { prepareResponses := fun _ => .okJson "VALID" "0xdead"
      submit := fun _ => .ok ⟨5, 100, 1700000000, "https://explorer/round/5"⟩
      retrieve := fun _ _ => .ok ⟨"0xbeef", "Web2Json", []⟩ }
    (Or.inl rfl)
  exact ⟨Or.inl rfl, h.1, h.2.1, h.2.2⟩
